import Mathlib

/-!
Verification of the Game-of-Life core of `src/main.cpp` (classes `Cell`,
`Neighborhood`, `Grid`, `PlayStrategy`) against its natural-language
specification.

The C++ code is shallowly embedded: machine `int`s become `Int` (all reachable
values are far from overflow), the raw owning array `m_contents` becomes a
`List Int`, and the undefined behavior of out-of-bounds array accesses is
surfaced as `Option` (`none` = the access would be out of the allocated
buffer).  C++ `int` division truncates toward zero, which is `Int.tdiv` /
`Int.tmod` here.
-/

namespace GameOfLife

/-- class `Cell`: one grid position's status and (x, y) location. -/
structure Cell where
  m_status : Int
  m_location : Int × Int
deriving DecidableEq

/-- `Cell::is_alive`: `bool(m_status)`, i.e. true iff the status is nonzero. -/
def Cell.is_alive (c : Cell) : Bool := c.m_status != 0

/-- `Cell::coord`. -/
def Cell.coord (c : Cell) : Int × Int := c.m_location

/-- class `Neighborhood`: a center cell together with the cells around it. -/
structure Neighborhood where
  m_cell : Cell
  m_neighbors : List Cell
deriving DecidableEq

/-- `Neighborhood::cell_status`. -/
def Neighborhood.cell_status (n : Neighborhood) : Bool := n.m_cell.is_alive

/-- `Neighborhood::cell_location`. -/
def Neighborhood.cell_location (n : Neighborhood) : Int × Int := n.m_cell.coord

/-- `Neighborhood::count_alive_neighbors`: the loop counting living neighbors. -/
def Neighborhood.count_alive_neighbors (n : Neighborhood) : Nat :=
  n.m_neighbors.countP (fun c => c.is_alive)

/-- `Grid::m_neighbor_offsets`, in declaration order. -/
def m_neighbor_offsets : List (Int × Int) :=
  [(-1, -1), (0, -1), (1, -1), (-1, 0), (1, 0), (-1, 1), (0, 1), (1, 1)]

/-- class `Grid`: the board state.  `m_contents` is the allocated buffer of
`m_width * m_height` statuses (the length of the list is the size of the
allocation `new int[m_max]`). -/
structure Grid where
  m_contents : List Int
  m_width : Int
  m_height : Int
deriving DecidableEq

/-- `Grid::m_max = width * height` (set in the constructor). -/
def Grid.m_max (g : Grid) : Int := g.m_width * g.m_height

/-- `Grid::to_2d`: `x = floor(idx / m_height); y = idx % m_height` with C++
truncating `int` division (`floor` on an already-integral quotient is the
identity). -/
def Grid.to_2d (g : Grid) (idx : Int) : Int × Int :=
  (idx.tdiv g.m_height, idx.tmod g.m_height)

/-- `Grid::to_1d`: `coord[1] + coord[0] * m_height`. -/
def Grid.to_1d (g : Grid) (coord : Int × Int) : Int :=
  coord.2 + coord.1 * g.m_height

/-- `Grid::value_at`: `m_contents[to_1d(coord)]`.  The C++ access is undefined
behavior when the index is outside the allocated buffer; that case is `none`. -/
def Grid.value_at (g : Grid) (coord : Int × Int) : Option Int :=
  let idx := g.to_1d coord
  if 0 ≤ idx ∧ idx < (g.m_contents.length : Int) then g.m_contents.get? idx.toNat
  else none

/-- `Grid::neighbors`: apply the 8 offsets to `to_2d(idx)` and keep the
candidates whose two components lie strictly inside `[0, width) × [0, height)`,
reading each kept neighbor's status with `value_at`.  (Inside the bounds check
the C++ `value_at` call is in range whenever the buffer has its advertised
size, so dropping a `none` from `value_at` only alters unreachable cases.) -/
def Grid.neighbors (g : Grid) (idx : Int) : List Cell :=
  let this_coord := g.to_2d idx
  m_neighbor_offsets.filterMap (fun off =>
    let nc : Int × Int := (this_coord.1 + off.1, this_coord.2 + off.2)
    if -1 < nc.1 ∧ nc.1 < g.m_width ∧ -1 < nc.2 ∧ nc.2 < g.m_height then
      (g.value_at nc).map (fun s => Cell.mk s nc)
    else none)

/-- The body of the `Grid::neighborhoods` loop for linear index `i`: the center
cell is read directly from `m_contents[i]`. -/
def Grid.hood (g : Grid) (i : Nat) : Neighborhood :=
  { m_cell := Cell.mk (g.m_contents.getD i 0) (g.to_2d i),
    m_neighbors := g.neighbors i }

/-- `Grid::neighborhoods`: one `Neighborhood` per linear index `0..m_max-1`,
in that order. -/
def Grid.neighborhoods (g : Grid) : List Neighborhood :=
  (List.range g.m_max.toNat).map g.hood

/-- `Grid::activate`: `m_contents[to_1d(coord)] = 1`; `none` when the write
would be outside the allocated buffer (undefined behavior in the source). -/
def Grid.activate (g : Grid) (coord : Int × Int) : Option Grid :=
  let idx := g.to_1d coord
  if 0 ≤ idx ∧ idx < (g.m_contents.length : Int) then
    some { g with m_contents := g.m_contents.set idx.toNat 1 }
  else none

/-- `Grid::deactivate`: `m_contents[to_1d(coord)] = 0`; `none` when out of the
allocated buffer. -/
def Grid.deactivate (g : Grid) (coord : Int × Int) : Option Grid :=
  let idx := g.to_1d coord
  if 0 ≤ idx ∧ idx < (g.m_contents.length : Int) then
    some { g with m_contents := g.m_contents.set idx.toNat 0 }
  else none

namespace PlayStrategy

/-- `PlayStrategy::cell_lives`: the Conway transition function exactly as the
source writes it. -/
def cell_lives (alive : Bool) (living_neighbor_count : Nat) : Bool :=
  if living_neighbor_count < 2 || 3 < living_neighbor_count then false
  else if alive then true
  else if living_neighbor_count == 3 then true
  else false

/-- The loop body sequence of `PlayStrategy::applyTo`: walk the (pre-computed)
neighborhood list, activating or deactivating each center in turn. -/
def applyHoods : Grid → List Neighborhood → Option Grid
  | g, [] => some g
  | g, nh :: rest =>
    (if cell_lives nh.cell_status nh.count_alive_neighbors
     then g.activate nh.cell_location
     else g.deactivate nh.cell_location).bind (fun g' => applyHoods g' rest)

/-- `PlayStrategy::applyTo`: snapshot the whole grid's neighborhoods first,
then mutate the grid cell by cell. -/
def applyTo (g : Grid) : Option Grid :=
  applyHoods g g.neighborhoods

end PlayStrategy

/-- One step of `std::minstd_rand0`, which is GNU libstdc++'s
`std::default_random_engine` used for `Grid::m_engine`:
`x ↦ 16807 * x mod 2147483647`. -/
def engine_next (s : Nat) : Nat := (16807 * s) % 2147483647

/-- `std::default_random_engine`'s fixed default seed: the member `m_engine` is
default-constructed, so every `Grid` starts its engine here. -/
def default_seed : Nat := 1

/-- One draw of `m_distribution(m_engine)` with
`uniform_int_distribution<int>(0, 1)`: advance the engine and map its state to
{0, 1}.  The exact mapping from engine output to {0, 1} is a standard-library
implementation detail; it is modelled as the parity of the new state.  The
claims below depend only on the draw being a deterministic function of the
engine state, which holds for the real library mapping as well. -/
def draw01 (s : Nat) : Int × Nat :=
  let s' := engine_next s
  (((s' % 2 : Nat) : Int), s')

/-- The constructor's seeding loop: `n` successive draws from engine state `s`. -/
def init_contents : Nat → Nat → List Int
  | 0, _ => []
  | n + 1, s =>
    let d := draw01 s
    d.1 :: init_contents n d.2

/-- `Grid::Grid(width, height)`: allocate `width * height` cells and fill each
from the default-constructed engine. -/
def Grid.construct (width height : Int) : Grid :=
  { m_contents := init_contents (width * height).toNat default_seed,
    m_width := width,
    m_height := height }

/-- A construction event in an ambient environment: `entropy` stands for
whatever run-dependent entropy (time, OS randomness) a given run could offer a
seeding mechanism.  `Grid::Grid` consumes none of it: `m_engine` is
default-constructed with the fixed `default_seed`, so the parameter is unused. -/
def Grid.construct_in_env (entropy : Nat) (width height : Int) : Grid :=
  let _ := entropy
  Grid.construct width height

/-- Repeated generations: `Game::play_round` applied `n` times. -/
def simulate (g : Grid) : Nat → Option Grid
  | 0 => some g
  | n + 1 => (PlayStrategy.applyTo g).bind (fun g' => simulate g' n)

/-- Well-formedness of a grid as produced and maintained by the program:
positive dimensions, the buffer has its advertised size `m_max`, and every
stored status is 0 or 1. -/
def Grid.WF (g : Grid) : Prop :=
  0 < g.m_width ∧ 0 < g.m_height ∧
  g.m_contents.length = g.m_max.toNat ∧
  ∀ s ∈ g.m_contents, s = 0 ∨ s = 1

instance (g : Grid) : Decidable g.WF := by
  unfold Grid.WF; infer_instance

/-- The spec's transition table (spec §4.3), written from the spec's words. -/
def next_status_spec (currently_alive : Bool) (living_neighbor_count : Nat) : Bool :=
  if living_neighbor_count < 2 then false
  else if living_neighbor_count > 3 then false
  else if currently_alive then true
  else if living_neighbor_count = 3 then true
  else false

/-- Spec §4.1 neighbor rule, written from the spec's words: apply the 8 offset
vectors {(±1,±1),(±1,0),(0,±1)} to the center and keep exactly the candidates
with both components strictly within [0,width) × [0,height). -/
def spec_neighbor_coords (width height : Int) (c : Int × Int) : List (Int × Int) :=
  ([(-1, -1), (0, -1), (1, -1), (-1, 0), (1, 0), (-1, 1), (0, 1), (1, 1)] :
      List (Int × Int)).filterMap (fun off =>
    let nc : Int × Int := (c.1 + off.1, c.2 + off.2)
    if 0 ≤ nc.1 ∧ nc.1 < width ∧ 0 ≤ nc.2 ∧ nc.2 < height then some nc else none)

/-- Spec: the number of living neighbors of the cell at `c`, all read from the
pre-step contents via the spec's linear layout `index = second + first * height`. -/
def spec_live_neighbor_count (g : Grid) (c : Int × Int) : Nat :=
  (spec_neighbor_coords g.m_width g.m_height c).countP
    (fun nc => g.m_contents.getD (nc.2 + nc.1 * g.m_height).toNat 0 != 0)

/-- The reference synchronous (double-buffered) Game-of-Life step, written from
the spec's words: every cell's next status is `next_status` of its pre-step
status and pre-step living-neighbor count, all computed from the old buffer. -/
def lifeStep_spec (g : Grid) : Grid :=
  { g with m_contents :=
      (List.range g.m_max.toNat).map (fun (i : Nat) =>
        let c := g.to_2d (i : Int)
        if next_status_spec (g.m_contents.getD i 0 != 0) (spec_live_neighbor_count g c)
        then 1 else 0) }

/-- The status `applyTo` writes at linear index `i`: the decision of
`cell_lives` on the neighborhood of `i`, all taken from the snapshot grid `g`. -/
def code_decision (g : Grid) (i : Nat) : Int :=
  if PlayStrategy.cell_lives (g.hood i).cell_status (g.hood i).count_alive_neighbors
  then 1 else 0

/-- A coordinate is a corner of the board: both components are at an extreme. -/
def is_corner (g : Grid) (c : Int × Int) : Prop :=
  (c.1 = 0 ∨ c.1 = g.m_width - 1) ∧ (c.2 = 0 ∨ c.2 = g.m_height - 1)

/-- A coordinate is on the boundary of the board. -/
def is_boundary (g : Grid) (c : Int × Int) : Prop :=
  c.1 = 0 ∨ c.1 = g.m_width - 1 ∨ c.2 = 0 ∨ c.2 = g.m_height - 1

/-- A non-corner edge coordinate. -/
def is_edge (g : Grid) (c : Int × Int) : Prop :=
  is_boundary g c ∧ ¬is_corner g c

/-- An interior coordinate. -/
def is_interior (g : Grid) (c : Int × Int) : Prop :=
  ¬is_boundary g c

instance (g : Grid) (c : Int × Int) : Decidable (is_corner g c) := by
  unfold is_corner; infer_instance

instance (g : Grid) (c : Int × Int) : Decidable (is_boundary g c) := by
  unfold is_boundary; infer_instance

instance (g : Grid) (c : Int × Int) : Decidable (is_edge g c) := by
  unfold is_edge; infer_instance

instance (g : Grid) (c : Int × Int) : Decidable (is_interior g c) := by
  unfold is_interior; infer_instance

/-! ### Coordinate arithmetic helpers -/

theorem to_1d_to_2d (g : Grid) (hh : 0 < g.m_height) (i : Int) (hi : 0 ≤ i) :
    g.to_1d (g.to_2d i) = i := by
  unfold Grid.to_1d Grid.to_2d
  simp only
  rw [Int.tmod_eq_emod hi hh.le, Int.tdiv_eq_ediv hi hh.le]
  rw [mul_comm]
  exact Int.emod_add_ediv i g.m_height

theorem to_2d_bounds (g : Grid) (hh : 0 < g.m_height)
    (i : Int) (hi : 0 ≤ i) (him : i < g.m_max) :
    0 ≤ (g.to_2d i).1 ∧ (g.to_2d i).1 < g.m_width ∧
    0 ≤ (g.to_2d i).2 ∧ (g.to_2d i).2 < g.m_height := by
  unfold Grid.to_2d
  unfold Grid.m_max at him
  simp only
  rw [Int.tmod_eq_emod hi hh.le, Int.tdiv_eq_ediv hi hh.le]
  refine ⟨Int.ediv_nonneg hi hh.le, ?_, Int.emod_nonneg i hh.ne.symm, Int.emod_lt_of_pos i hh⟩
  exact (Int.ediv_lt_iff_lt_mul hh).mpr him

theorem to_2d_to_1d (g : Grid) (c : Int × Int) (h1 : 0 ≤ c.1) (h2 : c.1 < g.m_width)
    (h3 : 0 ≤ c.2) (h4 : c.2 < g.m_height) : g.to_2d (g.to_1d c) = c := by
  have hh : 0 < g.m_height := lt_of_le_of_lt h3 h4
  have hn : 0 ≤ c.2 + c.1 * g.m_height := add_nonneg h3 (mul_nonneg h1 hh.le)
  unfold Grid.to_1d Grid.to_2d
  rw [Int.tdiv_eq_ediv hn hh.le, Int.tmod_eq_emod hn hh.le]
  have e1 : (c.2 + c.1 * g.m_height) / g.m_height = c.1 := by
    rw [Int.add_mul_ediv_right c.2 c.1 hh.ne.symm, Int.ediv_eq_zero_of_lt h3 h4, zero_add]
  have e2 : (c.2 + c.1 * g.m_height) % g.m_height = c.2 := by
    rw [Int.add_mul_emod_self, Int.emod_eq_of_lt h3 h4]
  rw [e1, e2]

theorem to_1d_range (g : Grid) (c : Int × Int) (h1 : 0 ≤ c.1) (h2 : c.1 < g.m_width)
    (h3 : 0 ≤ c.2) (h4 : c.2 < g.m_height) :
    0 ≤ g.to_1d c ∧ g.to_1d c < g.m_max := by
  have hh : 0 < g.m_height := lt_of_le_of_lt h3 h4
  unfold Grid.to_1d Grid.m_max
  constructor
  · exact add_nonneg h3 (mul_nonneg h1 hh.le)
  · nlinarith [mul_le_mul_of_nonneg_right (Int.add_one_le_iff.mpr h2) hh.le]

theorem value_at_of_bounds (g : Grid) (hlen : g.m_contents.length = g.m_max.toNat)
    (c : Int × Int) (h1 : 0 ≤ c.1) (h2 : c.1 < g.m_width)
    (h3 : 0 ≤ c.2) (h4 : c.2 < g.m_height) :
    g.value_at c = some (g.m_contents.getD (g.to_1d c).toNat 0) := by
  obtain ⟨hge, hlt⟩ := to_1d_range g c h1 h2 h3 h4
  have hmax : (0 : Int) ≤ g.m_max := le_trans hge hlt.le
  have hlen' : (g.m_contents.length : Int) = g.m_max := by
    rw [hlen, Int.toNat_of_nonneg hmax]
  have hidx : (g.to_1d c).toNat < g.m_contents.length := by omega
  unfold Grid.value_at
  rw [if_pos ⟨hge, by omega⟩]
  simp [List.getD_eq_getElem?_getD, List.get?_eq_getElem?, List.getElem?_eq_getElem hidx]

/-- Claim C1: for every pair (alive, living neighbor count in 0..8),
`PlayStrategy::cell_lives` returns false below 2 neighbors, false above 3,
true for a live cell with 2 or 3, true for a dead cell with exactly 3, false
for a dead cell with 2 - and hence agrees with the spec's exhaustive table. -/
theorem cell_lives_matches_spec_table (alive : Bool) (n : Nat) (hn : n ≤ 8) :
    (n < 2 → PlayStrategy.cell_lives alive n = false) ∧
    (3 < n → PlayStrategy.cell_lives alive n = false) ∧
    (alive = true → n = 2 ∨ n = 3 → PlayStrategy.cell_lives alive n = true) ∧
    (alive = false → n = 3 → PlayStrategy.cell_lives alive n = true) ∧
    (alive = false → n = 2 → PlayStrategy.cell_lives alive n = false) ∧
    PlayStrategy.cell_lives alive n = next_status_spec alive n := by
  rcases alive <;> interval_cases n <;> decide

theorem cell_lives_matches_spec_table_witness :
    PlayStrategy.cell_lives false 3 = true ∧
    PlayStrategy.cell_lives true 4 = false := by
  constructor
  · exact (cell_lives_matches_spec_table false 3 (by decide)).2.2.2.1 rfl rfl
  · exact (cell_lives_matches_spec_table true 4 (by decide)).2.1 (by decide)

/-- Claim C3: on a grid with positive dimensions, `to_1d` and `to_2d` are
mutually inverse on the valid index/coordinate space, `to_2d` divides the
index by the height and takes it modulo the height, and `to_1d` computes
second + first * height. -/
theorem coord_transforms_are_inverse (g : Grid) (hw : 0 < g.m_width) (hh : 0 < g.m_height) :
    (∀ i : Int, 0 ≤ i → i < g.m_max → g.to_1d (g.to_2d i) = i) ∧
    (∀ c : Int × Int, 0 ≤ c.1 → c.1 < g.m_width → 0 ≤ c.2 → c.2 < g.m_height →
      g.to_2d (g.to_1d c) = c) ∧
    (∀ i : Int, g.to_2d i = (i.tdiv g.m_height, i.tmod g.m_height)) ∧
    (∀ c : Int × Int, g.to_1d c = c.2 + c.1 * g.m_height) := by
  refine ⟨fun i hi _ => to_1d_to_2d g hh i hi,
    fun c h1 h2 h3 h4 => to_2d_to_1d g c h1 h2 h3 h4,
    fun i => rfl, fun c => rfl⟩

theorem coord_transforms_are_inverse_witness :
    (Grid.mk [0, 0, 0, 0, 0, 0] 2 3).to_1d ((Grid.mk [0, 0, 0, 0, 0, 0] 2 3).to_2d 5) = 5 := by
  exact (coord_transforms_are_inverse (Grid.mk [0, 0, 0, 0, 0, 0] 2 3)
    (by decide) (by decide)).1 5 (by decide) (by decide)

/-! ### Neighbor enumeration -/

theorem neighbors_eq_pure (g : Grid) (hlen : g.m_contents.length = g.m_max.toNat) (idx : Int) :
    g.neighbors idx = m_neighbor_offsets.filterMap (fun off =>
      if 0 ≤ (g.to_2d idx).1 + off.1 ∧ (g.to_2d idx).1 + off.1 < g.m_width ∧
         0 ≤ (g.to_2d idx).2 + off.2 ∧ (g.to_2d idx).2 + off.2 < g.m_height then
        some (Cell.mk
          (g.m_contents.getD (g.to_1d ((g.to_2d idx).1 + off.1, (g.to_2d idx).2 + off.2)).toNat 0)
          ((g.to_2d idx).1 + off.1, (g.to_2d idx).2 + off.2))
      else none) := by
  unfold Grid.neighbors
  apply List.filterMap_congr
  intro off hoff
  dsimp only
  by_cases hb : 0 ≤ (g.to_2d idx).1 + off.1 ∧ (g.to_2d idx).1 + off.1 < g.m_width ∧
      0 ≤ (g.to_2d idx).2 + off.2 ∧ (g.to_2d idx).2 + off.2 < g.m_height
  · obtain ⟨b1, b2, b3, b4⟩ := hb
    rw [if_pos ⟨by omega, b2, by omega, b4⟩, if_pos ⟨b1, b2, b3, b4⟩,
      value_at_of_bounds g hlen _ b1 b2 b3 b4]
    rfl
  · have hb' : ¬(-1 < (g.to_2d idx).1 + off.1 ∧ (g.to_2d idx).1 + off.1 < g.m_width ∧
        -1 < (g.to_2d idx).2 + off.2 ∧ (g.to_2d idx).2 + off.2 < g.m_height) := by omega
    rw [if_neg hb', if_neg hb]

/-- Claim C4: a cell is in `Grid::neighbors` of an in-bounds center iff it
arises from one of the 8 fixed offsets, both of its components are strictly
inside [0, width) x [0, height) (no wraparound), and it carries the status
stored at that coordinate. -/
theorem neighbors_mem_iff (g : Grid) (hWF : g.WF) (idx : Int)
    (hi : 0 ≤ idx) (him : idx < g.m_max) (c : Cell) :
    c ∈ g.neighbors idx ↔
      ∃ off ∈ m_neighbor_offsets,
        c.m_location = ((g.to_2d idx).1 + off.1, (g.to_2d idx).2 + off.2) ∧
        0 ≤ c.m_location.1 ∧ c.m_location.1 < g.m_width ∧
        0 ≤ c.m_location.2 ∧ c.m_location.2 < g.m_height ∧
        g.value_at c.m_location = some c.m_status := by
  have _ := hi
  have _ := him
  rw [neighbors_eq_pure g hWF.2.2.1, List.mem_filterMap]
  constructor
  · rintro ⟨off, hoff, hf⟩
    by_cases hb : 0 ≤ (g.to_2d idx).1 + off.1 ∧ (g.to_2d idx).1 + off.1 < g.m_width ∧
        0 ≤ (g.to_2d idx).2 + off.2 ∧ (g.to_2d idx).2 + off.2 < g.m_height
    · rw [if_pos hb] at hf
      injection hf with hf
      subst hf
      exact ⟨off, hoff, rfl, hb.1, hb.2.1, hb.2.2.1, hb.2.2.2,
        value_at_of_bounds g hWF.2.2.1 _ hb.1 hb.2.1 hb.2.2.1 hb.2.2.2⟩
    · rw [if_neg hb] at hf
      exact Option.noConfusion hf
  · rintro ⟨off, hoff, hloc, b1, b2, b3, b4, hval⟩
    obtain ⟨s, loc⟩ := c
    simp only at hloc b1 b2 b3 b4 hval
    subst hloc
    simp only at b1 b2 b3 b4 hval
    refine ⟨off, hoff, ?_⟩
    rw [if_pos ⟨b1, b2, b3, b4⟩]
    rw [value_at_of_bounds g hWF.2.2.1 _ b1 b2 b3 b4] at hval
    injection hval with hval
    rw [hval]

theorem neighbors_mem_iff_witness :
    Cell.mk 1 (1, 0) ∈ (Grid.mk [0, 1, 1, 0] 2 2).neighbors 0 :=
  (neighbors_mem_iff (Grid.mk [0, 1, 1, 0] 2 2) (by decide) 0 (by decide) (by decide)
    (Cell.mk 1 (1, 0))).mpr (by decide)

theorem length_filterMap_isSome {α β : Type} (f : α → Option β) (l : List α) :
    (l.filterMap f).length = l.countP (fun a => (f a).isSome) := by
  induction l with
  | nil => rfl
  | cons a l ih =>
    rw [List.filterMap_cons, List.countP_cons]
    cases h : f a <;> simp [h, ih]

theorem countP_offsets_factor (P Q : Int → Bool) (hP : P 0 = true) (hQ : Q 0 = true) :
    m_neighbor_offsets.countP (fun off => P off.1 && Q off.2) =
      ((if P (-1) = true then 1 else 0) + 1 + (if P 1 = true then 1 else 0)) *
      ((if Q (-1) = true then 1 else 0) + 1 + (if Q 1 = true then 1 else 0)) - 1 := by
  cases h1 : P (-1) <;> cases h2 : P 1 <;> cases h3 : Q (-1) <;> cases h4 : Q 1 <;>
    simp [m_neighbor_offsets, List.countP_cons, List.countP_nil, h1, h2, h3, h4, hP, hQ]

theorem isSome_ite_some {α : Type} (c : Prop) [Decidable c] (a : α) :
    (if c then some a else none).isSome = decide c := by
  by_cases h : c <;> simp [h]

theorem decide_conj4 (a b c d : Prop)
    [Decidable a] [Decidable b] [Decidable c] [Decidable d] :
    decide (a ∧ b ∧ c ∧ d) = (decide (a ∧ b) && decide (c ∧ d)) := by
  by_cases ha : a <;> by_cases hb : b <;> by_cases hc : c <;> by_cases hd : d <;>
    simp [ha, hb, hc, hd]

theorem neighbors_length_formula (g : Grid) (hWF : g.WF)
    (idx : Int) (hi : 0 ≤ idx) (him : idx < g.m_max) :
    (g.neighbors idx).length =
      ((if 1 ≤ (g.to_2d idx).1 then 1 else 0) + 1 +
        (if (g.to_2d idx).1 + 1 < g.m_width then 1 else 0)) *
      ((if 1 ≤ (g.to_2d idx).2 then 1 else 0) + 1 +
        (if (g.to_2d idx).2 + 1 < g.m_height then 1 else 0)) - 1 := by
  obtain ⟨c1, c2, c3, c4⟩ := to_2d_bounds g hWF.2.1 idx hi him
  rw [neighbors_eq_pure g hWF.2.2.1, length_filterMap_isSome]
  simp only [isSome_ite_some, decide_conj4]
  rw [countP_offsets_factor
      (fun x => decide (0 ≤ (g.to_2d idx).1 + x ∧ (g.to_2d idx).1 + x < g.m_width))
      (fun y => decide (0 ≤ (g.to_2d idx).2 + y ∧ (g.to_2d idx).2 + y < g.m_height))
      (by simp only [decide_eq_true_eq]; omega)
      (by simp only [decide_eq_true_eq]; omega)]
  simp only [decide_eq_true_eq]
  split_ifs <;> omega

/-- Claim C5, counterexample: on the (well-formed) 1×1 grid the unique cell is a
corner, yet its neighbor sequence is empty, not of length 3. -/
theorem neighborhood_sizes_counterexample :
    (Grid.mk [0] 1 1).WF ∧
    ¬(∀ nh ∈ (Grid.mk [0] 1 1).neighborhoods,
        is_corner (Grid.mk [0] 1 1) nh.cell_location → nh.m_neighbors.length = 3) := by
  decide

/-- Claim C5 (amended): on every well-formed grid, `neighborhoods()` returns
exactly width * height elements, one per linear index in order; and provided
width ≥ 2 and height ≥ 2, each element has exactly 3 neighbors when its center
is a corner, 5 when it is a non-corner edge cell, and 8 when it is interior. -/
theorem neighborhoods_count_and_sizes (g : Grid) (hWF : g.WF) :
    g.neighborhoods.length = g.m_width.toNat * g.m_height.toNat ∧
    (∀ k (hk : k < g.neighborhoods.length),
      (g.neighborhoods.get ⟨k, hk⟩).cell_location = g.to_2d (k : Int)) ∧
    (2 ≤ g.m_width → 2 ≤ g.m_height →
      ∀ nh ∈ g.neighborhoods,
        (is_corner g nh.cell_location → nh.m_neighbors.length = 3) ∧
        (is_edge g nh.cell_location → nh.m_neighbors.length = 5) ∧
        (is_interior g nh.cell_location → nh.m_neighbors.length = 8)) := by
  obtain ⟨hw, hh, hlen, hvals⟩ := hWF
  have hmax : g.m_max.toNat = g.m_width.toNat * g.m_height.toNat := by
    unfold Grid.m_max
    zify [mul_nonneg hw.le hh.le]
    rw [Int.toNat_of_nonneg hw.le, Int.toNat_of_nonneg hh.le]
    exact Int.toNat_of_nonneg (mul_nonneg hw.le hh.le)
  refine ⟨?_, ?_, ?_⟩
  · unfold Grid.neighborhoods
    rw [List.length_map, List.length_range, hmax]
  · intro k hk
    unfold Grid.neighborhoods at hk ⊢
    rw [List.get_map]
    have : (List.range g.m_max.toNat).get
        ⟨k, by simpa using hk⟩ = k := List.get_range _ _
    rw [this]
    rfl
  · intro hw2 hh2 nh hnh
    unfold Grid.neighborhoods at hnh
    rw [List.mem_map] at hnh
    obtain ⟨i, hi, rfl⟩ := hnh
    rw [List.mem_range] at hi
    have hi0 : (0 : Int) ≤ (i : Int) := Int.ofNat_nonneg i
    have him : (i : Int) < g.m_max := by
      have : (i : Int) < (g.m_max.toNat : Int) := by exact_mod_cast hi
      rwa [Int.toNat_of_nonneg (by unfold Grid.m_max; positivity)] at this
    have hloc : (g.hood i).cell_location = g.to_2d (i : Int) := rfl
    have hnb : (g.hood i).m_neighbors = g.neighbors (i : Int) := rfl
    have hform := neighbors_length_formula g ⟨hw, hh, hlen, hvals⟩ (i : Int) hi0 him
    obtain ⟨c1, c2, c3, c4⟩ := to_2d_bounds g hh (i : Int) hi0 him
    rw [hloc, hnb, hform]
    simp only [is_edge, is_interior, is_corner, is_boundary]
    refine ⟨?_, ?_, ?_⟩ <;> intro hcl <;> split_ifs <;> omega

theorem neighborhoods_count_and_sizes_witness :
    (Grid.mk [0, 0, 0, 0, 0, 0, 0, 0, 0] 3 3).neighborhoods.length = 9 :=
  (neighborhoods_count_and_sizes (Grid.mk [0, 0, 0, 0, 0, 0, 0, 0, 0] 3 3)
    (by decide)).1

/-! ### The in-place generation update -/

theorem activate_of_range (g : Grid) (c : Int × Int) (h0 : 0 ≤ g.to_1d c)
    (hlt : g.to_1d c < (g.m_contents.length : Int)) :
    g.activate c = some { g with m_contents := g.m_contents.set (g.to_1d c).toNat 1 } := by
  unfold Grid.activate
  rw [if_pos ⟨h0, hlt⟩]

theorem deactivate_of_range (g : Grid) (c : Int × Int) (h0 : 0 ≤ g.to_1d c)
    (hlt : g.to_1d c < (g.m_contents.length : Int)) :
    g.deactivate c = some { g with m_contents := g.m_contents.set (g.to_1d c).toNat 0 } := by
  unfold Grid.deactivate
  rw [if_pos ⟨h0, hlt⟩]

theorem foldl_set_getElem? (f : Nat → Int) (is : List Nat) (cs : List Int) (j : Nat) :
    (is.foldl (fun l i => l.set i (f i)) cs)[j]? =
      if j ∈ is ∧ j < cs.length then some (f j) else cs[j]? := by
  induction is generalizing cs with
  | nil => simp
  | cons i is ih =>
    rw [List.foldl_cons, ih, List.length_set]
    by_cases hmem : j ∈ is
    · by_cases hj : j < cs.length
      · simp [hmem, hj]
      · simp [hmem, hj, List.getElem?_set, List.getElem?_eq_none (by omega : cs.length ≤ j)]
        intro h
        omega
    · by_cases hij : i = j
      · subst hij
        by_cases hj : i < cs.length <;>
          simp [hmem, hj, List.getElem?_set, List.getElem?_eq_none]
        omega
      · simp [hmem, hij, List.getElem?_set]
        rw [if_neg (show ¬(j = i ∧ j < cs.length) from fun h => hij h.1.symm)]

theorem foldl_set_range (f : Nat → Int) (cs : List Int) (n : Nat) (hlen : cs.length = n) :
    (List.range n).foldl (fun l i => l.set i (f i)) cs = (List.range n).map f := by
  apply List.ext_getElem?
  intro j
  rw [foldl_set_getElem?]
  by_cases hj : j < n
  · simp [List.mem_range, hj, hlen, List.getElem?_map, List.getElem?_range hj]
  · rw [if_neg (by simp [List.mem_range, hj])]
    rw [List.getElem?_eq_none (by omega), List.getElem?_eq_none (by simpa using hj)]

theorem applyHoods_on_indices (g : Grid) (hh : 0 < g.m_height)
    (hlen : g.m_contents.length = g.m_max.toNat)
    (is : List Nat) :
    ∀ gc : Grid, (∀ j ∈ is, j < g.m_max.toNat) →
      gc.m_width = g.m_width → gc.m_height = g.m_height →
      gc.m_contents.length = g.m_contents.length →
      PlayStrategy.applyHoods gc (is.map g.hood) =
        some { gc with
               m_contents :=
                 is.foldl (fun l j => l.set j (code_decision g j)) gc.m_contents } := by
  induction is with
  | nil =>
    intro gc _ _ _ _
    rfl
  | cons j is ih =>
    intro gc his hcw hch hcl
    have hj : j < g.m_max.toNat := his j (List.mem_cons_self j is)
    have hcoord : gc.to_1d ((g.hood j).cell_location) = (j : Int) := by
      show gc.to_1d (g.to_2d (j : Int)) = (j : Int)
      unfold Grid.to_1d
      rw [hch]
      exact to_1d_to_2d g hh (j : Int) (Int.ofNat_nonneg j)
    have hjlen : ((j : Int)) < (gc.m_contents.length : Int) := by
      rw [hcl, hlen]
      exact_mod_cast hj
    have hnat : ((j : Int)).toNat = j := Int.toNat_ofNat j
    rw [List.map_cons]
    show PlayStrategy.applyHoods gc (g.hood j :: is.map g.hood) = _
    unfold PlayStrategy.applyHoods
    by_cases hlive : PlayStrategy.cell_lives ((g.hood j).cell_status)
        ((g.hood j).count_alive_neighbors) = true
    · rw [if_pos hlive,
        activate_of_range gc _ (by rw [hcoord]; exact Int.ofNat_nonneg j)
          (by rw [hcoord]; exact hjlen)]
      rw [Option.some_bind, hcoord, hnat]
      rw [ih { gc with m_contents := gc.m_contents.set j 1 }
        (fun a ha => his a (List.mem_cons_of_mem j ha)) hcw hch (by simpa using hcl)]
      have hval : code_decision g j = 1 := by
        unfold code_decision
        rw [if_pos hlive]
      simp only [List.foldl_cons, hval]
    · rw [if_neg hlive,
        deactivate_of_range gc _ (by rw [hcoord]; exact Int.ofNat_nonneg j)
          (by rw [hcoord]; exact hjlen)]
      rw [Option.some_bind, hcoord, hnat]
      rw [ih { gc with m_contents := gc.m_contents.set j 0 }
        (fun a ha => his a (List.mem_cons_of_mem j ha)) hcw hch (by simpa using hcl)]
      have hval : code_decision g j = 0 := by
        unfold code_decision
        rw [if_neg hlive]
      simp only [List.foldl_cons, hval]

theorem applyTo_eq_map (g : Grid) (hWF : g.WF) :
    PlayStrategy.applyTo g =
      some { g with m_contents := (List.range g.m_max.toNat).map (code_decision g) } := by
  obtain ⟨hw, hh, hlen, hvals⟩ := hWF
  unfold PlayStrategy.applyTo Grid.neighborhoods
  rw [applyHoods_on_indices g hh hlen (List.range g.m_max.toNat) g
    (fun j hj => List.mem_range.mp hj) rfl rfl rfl]
  rw [foldl_set_range _ _ _ hlen]

theorem countP_filterMap_getD {α β : Type} (p : β → Bool) (f : α → Option β) (l : List α) :
    (l.filterMap f).countP p = l.countP (fun a => ((f a).map p).getD false) := by
  induction l with
  | nil => rfl
  | cons a l ih =>
    rw [List.filterMap_cons]
    cases h : f a <;> simp [h, List.countP_cons, ih]

theorem cell_lives_eq_spec (a : Bool) (n : Nat) :
    PlayStrategy.cell_lives a n = next_status_spec a n := by
  unfold PlayStrategy.cell_lives next_status_spec
  rcases a <;> by_cases h2 : n < 2 <;> by_cases h3 : 3 < n <;> by_cases h4 : n = 3 <;>
    simp [h2, h3, h4]

theorem count_alive_eq_spec (g : Grid) (hlen : g.m_contents.length = g.m_max.toNat) (i : Nat) :
    (g.hood i).count_alive_neighbors = spec_live_neighbor_count g (g.to_2d (i : Int)) := by
  show (g.neighbors (i : Int)).countP (fun c => c.is_alive) = _
  rw [neighbors_eq_pure g hlen, countP_filterMap_getD]
  unfold spec_live_neighbor_count spec_neighbor_coords
  rw [countP_filterMap_getD]
  unfold m_neighbor_offsets
  apply List.countP_congr
  intro off hoff
  dsimp only
  by_cases hb : 0 ≤ (g.to_2d (i : Int)).1 + off.1 ∧ (g.to_2d (i : Int)).1 + off.1 < g.m_width ∧
      0 ≤ (g.to_2d (i : Int)).2 + off.2 ∧ (g.to_2d (i : Int)).2 + off.2 < g.m_height
  · rw [if_pos hb, if_pos hb]
    exact Iff.rfl
  · rw [if_neg hb, if_neg hb]
    exact Iff.rfl

theorem code_decision_eq_spec (g : Grid) (hWF : g.WF) (i : Nat) :
    code_decision g i =
      if next_status_spec (g.m_contents.getD i 0 != 0)
          (spec_live_neighbor_count g (g.to_2d (i : Int))) then 1 else 0 := by
  unfold code_decision
  rw [count_alive_eq_spec g hWF.2.2.1 i]
  have hs : (g.hood i).cell_status = (g.m_contents.getD i 0 != 0) := rfl
  rw [hs, cell_lives_eq_spec]

/-- Claim C2: on any well-formed grid, one `PlayStrategy::applyTo` pass (which
snapshots all neighborhoods before mutating in place) succeeds and produces
exactly the reference synchronous (double-buffered) Game-of-Life step: every
cell's new status is the transition function of its pre-call status and
pre-call living-neighbor count. -/
theorem applyTo_is_synchronous_step (g : Grid) (hWF : g.WF) :
    PlayStrategy.applyTo g = some (lifeStep_spec g) := by
  rw [applyTo_eq_map g hWF]
  unfold lifeStep_spec
  congr 1
  congr 1
  apply List.map_congr_left
  intro i hi
  exact code_decision_eq_spec g hWF i

theorem applyTo_is_synchronous_step_witness :
    PlayStrategy.applyTo
        (Grid.mk [0, 0, 0, 0, 0, 0, 0, 0, 0, 0, 0, 1, 1, 1, 0, 0, 0, 0, 0, 0, 0, 0, 0, 0, 0] 5 5) =
      some (lifeStep_spec
        (Grid.mk [0, 0, 0, 0, 0, 0, 0, 0, 0, 0, 0, 1, 1, 1, 0, 0, 0, 0, 0, 0, 0, 0, 0, 0, 0] 5 5)) :=
  applyTo_is_synchronous_step _ (by decide)

/-! ### Invariant preservation -/

theorem init_contents_length (n : Nat) : ∀ s : Nat, (init_contents n s).length = n := by
  induction n with
  | zero => intro s; rfl
  | succ n ih =>
    intro s
    unfold init_contents
    simp [ih]

theorem init_contents_mem (n : Nat) : ∀ s : Nat, ∀ x ∈ init_contents n s, x = 0 ∨ x = 1 := by
  induction n with
  | zero =>
    intro s x hx
    cases hx
  | succ n ih =>
    intro s x hx
    unfold init_contents at hx
    rcases List.mem_cons.mp hx with h | h
    · subst h
      unfold draw01
      dsimp only
      omega
    · exact ih _ x h

theorem construct_WF (w h : Int) (hw : 0 < w) (hh : 0 < h) : (Grid.construct w h).WF := by
  refine ⟨hw, hh, ?_, ?_⟩
  · show (init_contents (w * h).toNat default_seed).length = ((w * h : Int)).toNat
    rw [init_contents_length]
  · exact init_contents_mem _ _

theorem activate_preserves (g : Grid) (c : Int × Int) (g' : Grid) (hWF : g.WF)
    (h : g.activate c = some g') :
    g'.WF ∧ g'.m_width = g.m_width ∧ g'.m_height = g.m_height := by
  unfold Grid.activate at h
  dsimp only at h
  split at h
  · injection h with h
    subst h
    refine ⟨⟨hWF.1, hWF.2.1, ?_, ?_⟩, rfl, rfl⟩
    · show (g.m_contents.set _ 1).length = g.m_max.toNat
      rw [List.length_set]
      exact hWF.2.2.1
    · intro x hx
      rcases List.mem_or_eq_of_mem_set hx with hx | hx
      · exact hWF.2.2.2 x hx
      · exact Or.inr hx
  · exact Option.noConfusion h

theorem deactivate_preserves (g : Grid) (c : Int × Int) (g' : Grid) (hWF : g.WF)
    (h : g.deactivate c = some g') :
    g'.WF ∧ g'.m_width = g.m_width ∧ g'.m_height = g.m_height := by
  unfold Grid.deactivate at h
  dsimp only at h
  split at h
  · injection h with h
    subst h
    refine ⟨⟨hWF.1, hWF.2.1, ?_, ?_⟩, rfl, rfl⟩
    · show (g.m_contents.set _ 0).length = g.m_max.toNat
      rw [List.length_set]
      exact hWF.2.2.1
    · intro x hx
      rcases List.mem_or_eq_of_mem_set hx with hx | hx
      · exact hWF.2.2.2 x hx
      · exact Or.inl hx
  · exact Option.noConfusion h

theorem applyTo_preserves (g g' : Grid) (hWF : g.WF)
    (h : PlayStrategy.applyTo g = some g') :
    g'.WF ∧ g'.m_width = g.m_width ∧ g'.m_height = g.m_height := by
  rw [applyTo_eq_map g hWF] at h
  injection h with h
  subst h
  refine ⟨⟨hWF.1, hWF.2.1, ?_, ?_⟩, rfl, rfl⟩
  · show ((List.range g.m_max.toNat).map (code_decision g)).length = g.m_max.toNat
    rw [List.length_map, List.length_range]
  · intro x hx
    rw [List.mem_map] at hx
    obtain ⟨i, _, hi⟩ := hx
    unfold code_decision at hi
    split at hi
    · exact Or.inr hi.symm
    · exact Or.inl hi.symm

/-- Claim C6: construction with positive dimensions, `activate`, `deactivate`,
and a full `applyTo` pass all preserve the invariant that every linear index
in [0, width * height) holds a well-defined status in {0, 1}, and leave the
dimensions unchanged. -/
theorem grid_operations_preserve_invariant :
    (∀ w h : Int, 0 < w → 0 < h →
      (Grid.construct w h).WF ∧
      (Grid.construct w h).m_width = w ∧ (Grid.construct w h).m_height = h) ∧
    (∀ (g : Grid) (c : Int × Int) (g' : Grid), g.WF → g.activate c = some g' →
      g'.WF ∧ g'.m_width = g.m_width ∧ g'.m_height = g.m_height) ∧
    (∀ (g : Grid) (c : Int × Int) (g' : Grid), g.WF → g.deactivate c = some g' →
      g'.WF ∧ g'.m_width = g.m_width ∧ g'.m_height = g.m_height) ∧
    (∀ g g' : Grid, g.WF → PlayStrategy.applyTo g = some g' →
      g'.WF ∧ g'.m_width = g.m_width ∧ g'.m_height = g.m_height) :=
  ⟨fun w h hw hh => ⟨construct_WF w h hw hh, rfl, rfl⟩,
   fun g c g' hWF h => activate_preserves g c g' hWF h,
   fun g c g' hWF h => deactivate_preserves g c g' hWF h,
   fun g g' hWF h => applyTo_preserves g g' hWF h⟩

theorem grid_operations_preserve_invariant_witness :
    (Grid.construct 2 3).WF :=
  (grid_operations_preserve_invariant.1 2 3 (by decide) (by decide)).1

/-! ### Bounds safety -/

/-- Claim C7, counterexample: on a well-formed 3×3 grid the coordinate (0, 5) violates
the bounds precondition, yet `to_1d` maps it to the in-range linear index 5,
so the array access succeeds (aliasing the cell at linear index 5) instead of
being out of bounds. -/
theorem out_of_bounds_coord_counterexample :
    (Grid.mk [0, 0, 0, 0, 0, 0, 0, 0, 0] 3 3).WF ∧
    ¬(0 ≤ (0 : Int) ∧ (0 : Int) < (Grid.mk [0, 0, 0, 0, 0, 0, 0, 0, 0] 3 3).m_width ∧
      0 ≤ (5 : Int) ∧ (5 : Int) < (Grid.mk [0, 0, 0, 0, 0, 0, 0, 0, 0] 3 3).m_height) ∧
    (Grid.mk [0, 0, 0, 0, 0, 0, 0, 0, 0] 3 3).to_1d (0, 5) = 5 ∧
    ((Grid.mk [0, 0, 0, 0, 0, 0, 0, 0, 0] 3 3).value_at (0, 5)).isSome = true ∧
    ((Grid.mk [0, 0, 0, 0, 0, 0, 0, 0, 0] 3 3).activate (0, 5)).isSome = true := by
  decide

/-- Claim C7 (amended: under the precondition all accesses are in range; a coordinate
whose linear index falls outside the buffer is rejected; but a coordinate can
violate the precondition while still producing an in-range linear index, so the
error branch is keyed on the linear index, not on the coordinate bounds) -/
theorem coord_precondition_access_safety (g : Grid) (hWF : g.WF) (c : Int × Int) :
    (0 ≤ c.1 → c.1 < g.m_width → 0 ≤ c.2 → c.2 < g.m_height →
      (0 ≤ g.to_1d c ∧ g.to_1d c < g.m_max) ∧
      (g.value_at c).isSome = true ∧
      (g.activate c).isSome = true ∧
      (g.deactivate c).isSome = true) ∧
    (¬(0 ≤ g.to_1d c ∧ g.to_1d c < g.m_max) →
      g.value_at c = none ∧ g.activate c = none ∧ g.deactivate c = none) := by
  obtain ⟨hw, hh, hlen, hvals⟩ := hWF
  have hlic : (g.m_contents.length : Int) = g.m_max := by
    rw [hlen]
    exact Int.toNat_of_nonneg (mul_nonneg hw.le hh.le)
  constructor
  · intro h1 h2 h3 h4
    obtain ⟨hge, hlt⟩ := to_1d_range g c h1 h2 h3 h4
    refine ⟨⟨hge, hlt⟩, ?_, ?_, ?_⟩
    · rw [value_at_of_bounds g hlen c h1 h2 h3 h4]
      rfl
    · unfold Grid.activate
      rw [if_pos ⟨hge, by omega⟩]
      rfl
    · unfold Grid.deactivate
      rw [if_pos ⟨hge, by omega⟩]
      rfl
  · intro hout
    refine ⟨?_, ?_, ?_⟩
    · unfold Grid.value_at
      rw [if_neg (by omega)]
    · unfold Grid.activate
      rw [if_neg (by omega)]
    · unfold Grid.deactivate
      rw [if_neg (by omega)]

theorem coord_precondition_access_safety_witness :
    ((Grid.mk [0, 0, 0, 0, 0, 0, 0, 0, 0] 3 3).value_at (1, 2)).isSome = true :=
  ((coord_precondition_access_safety (Grid.mk [0, 0, 0, 0, 0, 0, 0, 0, 0] 3 3)
    (by decide) (1, 2)).1 (by decide) (by decide) (by decide) (by decide)).2.1

/-! ### Fixed point and oscillation -/

theorem getD_zero_of_all_zero (l : List Int) (h : ∀ s ∈ l, s = 0) (n : Nat) :
    l.getD n 0 = 0 := by
  rcases Nat.lt_or_ge n l.length with hn | hn
  · rw [List.getD_eq_getElem l 0 hn]
    exact h _ (List.getElem_mem hn)
  · exact List.getD_eq_default l 0 hn

theorem getElem?_getD_zero (l : List Int) (h : ∀ s ∈ l, s = 0) (n : Nat) :
    (l[n]?).getD 0 = 0 := by
  rcases Nat.lt_or_ge n l.length with hn | hn
  · rw [List.getElem?_eq_getElem hn]
    exact h _ (List.getElem_mem hn)
  · rw [List.getElem?_eq_none hn]
    rfl

/-- Claim C8: applying one `applyTo` pass to an all-dead well-formed grid
leaves it exactly all-dead - no spontaneous birth. -/
theorem all_dead_is_fixed_point (g : Grid) (hWF : g.WF)
    (hdead : ∀ s ∈ g.m_contents, s = 0) :
    PlayStrategy.applyTo g = some g := by
  rw [applyTo_eq_map g hWF]
  refine congrArg some ?_
  have hmap : (List.range g.m_max.toNat).map (code_decision g) = g.m_contents := by
    apply List.ext_getElem
    · rw [List.length_map, List.length_range, hWF.2.2.1]
    · intro i h1 h2
      rw [List.getElem_map, List.getElem_range]
      have hcount : (g.hood i).count_alive_neighbors = 0 := by
        show (g.neighbors (i : Int)).countP (fun c => c.is_alive) = 0
        rw [List.countP_eq_zero]
        intro a ha
        rw [neighbors_eq_pure g hWF.2.2.1, List.mem_filterMap] at ha
        obtain ⟨off, _, hf⟩ := ha
        split at hf
        · injection hf with hf
          subst hf
          show ¬(Cell.is_alive _ = true)
          unfold Cell.is_alive
          simp [getD_zero_of_all_zero g.m_contents hdead,
            getElem?_getD_zero g.m_contents hdead]
        · exact Option.noConfusion hf
      have hcd : code_decision g i = 0 := by
        unfold code_decision
        rw [hcount]
        rfl
      rw [hcd]
      exact (hdead _ (List.getElem_mem h2)).symm
  rw [hmap]

theorem all_dead_is_fixed_point_witness :
    PlayStrategy.applyTo (Grid.mk [0, 0, 0, 0, 0, 0] 2 3) =
      some (Grid.mk [0, 0, 0, 0, 0, 0] 2 3) :=
  all_dead_is_fixed_point (Grid.mk [0, 0, 0, 0, 0, 0] 2 3) (by decide) (by decide)

/-- Claim C9: the horizontal blinker on the 5×5 board.  With the layout
`index = second + first · height`, the live cells (2,1), (2,2), (2,3) are the
linear indices 11, 12, 13; after one round exactly (1,2), (2,2), (3,2)
(indices 7, 12, 17) are alive, and a second round restores the original. -/
theorem blinker_period_two :
    PlayStrategy.applyTo
        (Grid.mk [0, 0, 0, 0, 0, 0, 0, 0, 0, 0, 0, 1, 1, 1, 0, 0, 0, 0, 0, 0, 0, 0, 0, 0, 0] 5 5) =
      some (Grid.mk [0, 0, 0, 0, 0, 0, 0, 1, 0, 0, 0, 0, 1, 0, 0, 0, 0, 1, 0, 0, 0, 0, 0, 0, 0] 5 5) ∧
    PlayStrategy.applyTo
        (Grid.mk [0, 0, 0, 0, 0, 0, 0, 1, 0, 0, 0, 0, 1, 0, 0, 0, 0, 1, 0, 0, 0, 0, 0, 0, 0] 5 5) =
      some (Grid.mk [0, 0, 0, 0, 0, 0, 0, 0, 0, 0, 0, 1, 1, 1, 0, 0, 0, 0, 0, 0, 0, 0, 0, 0, 0] 5 5) := by
  decide

/-- Claim C10: construction reads no ambient entropy (`m_engine` is
default-constructed at the fixed default seed), so any two runs constructing a
grid with the same dimensions get identical initial contents, and the whole
simulated state sequence is a function of the dimensions alone. -/
theorem construction_and_simulation_deterministic :
    ∀ (e1 e2 : Nat) (w h : Int) (n : Nat),
      (Grid.construct_in_env e1 w h).m_contents = (Grid.construct_in_env e2 w h).m_contents ∧
      Grid.construct_in_env e1 w h = Grid.construct_in_env e2 w h ∧
      simulate (Grid.construct_in_env e1 w h) n = simulate (Grid.construct_in_env e2 w h) n :=
  fun _ _ _ _ _ => ⟨rfl, rfl, rfl⟩

end GameOfLife
